import Mathlib

/-!
Shallow embedding of `src/dashboard.py` (a pandas/streamlit dashboard over a
semicolon-delimited CSV of vehicle acquisition records), together with proofs
of the specification claims about it.

Conventions of the embedding:
* a dataframe row is a `Row`; the loaded dataset is a `List Row` in file order;
* pandas boolean-mask filtering is `List.filter`;
* `df.groupby(ks)["QTDE"].sum().reset_index()` is `groupbySum`: one output
  entry per distinct key, paired with the sum of `QTDE` over the rows having
  that key.  pandas emits the group keys in sorted order while `groupbySum`
  emits them in dataset order; every claim below depends only on the
  key-to-sum mapping (and, for option lists, on the value set), never on the
  order of the group rows, so the two presentations agree on all claims;
* machine text is `String`; where a library routine does not reduce inside the
  Lean kernel (`str.strip`, number parsing) we model it by an explicitly
  recursive function on the character list with the same behavior;
* Python truthiness of a list (`if pi_filter:`) is `¬ isEmpty`.
-/

/-- A calendar date, the result of `pd.to_datetime(..., format="%d/%m/%Y")`
applied to the `DATA` column. -/
structure Date where
  day : Nat
  month : Nat
  year : Nat
deriving DecidableEq

/-- One row of the loaded dataset, after column validation and date parsing
(`dashboard.py` lines 7-32).  `data` is the parsed `DATA` column. -/
structure Row where
  data : Date
  pi : String
  cam : String
  tipo : String
  qtde : Int
  nome_coloquial : String
  processo_aip : String
deriving DecidableEq

/-- The derived `YEAR` column: `data["YEAR"] = data["DATA"].dt.year`
(line 29). -/
def Row.year (r : Row) : Nat := r.data.year

/-- The sidebar filter state: the three multiselect values and the two ends of
the year-range slider (lines 52-78). -/
structure Selection where
  pi_filter : List String
  cam_filter : List String
  nome_coloquial_filter : List String
  year_lo : Nat
  year_hi : Nat
deriving DecidableEq

/-- Lines 81-88: the year-range mask is always applied; each categorical
filter is applied only when its selection list is non-empty (Python
truthiness of the list), as `isin` membership. -/
def filtered_data (data : List Row) (sel : Selection) : List Row :=
  let fd := data.filter fun r =>
    decide (sel.year_lo ≤ r.year) && decide (r.year ≤ sel.year_hi)
  let fd := if sel.pi_filter.isEmpty then fd else
    fd.filter fun r => decide (r.pi ∈ sel.pi_filter)
  let fd := if sel.cam_filter.isEmpty then fd else
    fd.filter fun r => decide (r.cam ∈ sel.cam_filter)
  if sel.nome_coloquial_filter.isEmpty then fd else
    fd.filter fun r => decide (r.nome_coloquial ∈ sel.nome_coloquial_filter)

/-- Sum of the `QTDE` column over a list of rows. -/
def sumQtde (rows : List Row) : Int := (rows.map Row.qtde).sum

/-- Model of `rows.groupby(key)["QTDE"].sum().reset_index()`: one entry per
distinct key value, paired with the sum of `QTDE` over the rows carrying that
key.  (pandas lists the distinct keys in sorted order; here they appear in
dataset order — see the header comment.) -/
def groupbySum {K : Type} [DecidableEq K] (key : Row → K) (rows : List Row) :
    List (K × Int) :=
  ((rows.map key).dedup).map fun k =>
    (k, sumQtde (rows.filter fun r => decide (key r = k)))

/-- Model of `table.loc[p(key), "QTDE"].sum()`: total of the summed column
over the table entries whose key satisfies `p`. -/
def locKeySum {K : Type} (table : List (K × Int)) (p : K → Bool) : Int :=
  ((table.filter fun e => p e.1).map Prod.snd).sum

/-- Line 95-99: `filtered_data.groupby("TIPO")["QTDE"].sum().reset_index()`. -/
def total_summary (fd : List Row) : List (String × Int) :=
  groupbySum Row.tipo fd

/-- Line 101: `total_summary.loc[total_summary["TIPO"] == "EO", "QTDE"].sum()`. -/
def total_eo (fd : List Row) : Int :=
  locKeySum (total_summary fd) fun t => decide (t = "EO")

/-- Line 102: `total_summary.loc[total_summary["TIPO"] == "PO", "QTDE"].sum()`. -/
def total_po (fd : List Row) : Int :=
  locKeySum (total_summary fd) fun t => decide (t = "PO")

/-- Lines 109-113: `filtered_data.groupby(["YEAR", "TIPO"])["QTDE"].sum()`. -/
def yearly_eo_po (fd : List Row) : List ((Nat × String) × Int) :=
  groupbySum (fun r => (r.year, r.tipo)) fd

/-- Lines 133-137: `filtered_data.groupby(["YEAR", "TIPO", "CAM"])["QTDE"].sum()`. -/
def yearly_cam_data (fd : List Row) : List ((Nat × String × String) × Int) :=
  groupbySum (fun r => (r.year, r.tipo, r.cam)) fd

/-- Line 158: `filtered_data[filtered_data["YEAR"] == selected_year]`. -/
def year_filtered_data (fd : List Row) (selected_year : Nat) : List Row :=
  fd.filter fun r => decide (r.year = selected_year)

/-- Lines 160-164:
`year_filtered_data.groupby(["PROCESSO_AIP", "TIPO"])["QTDE"].sum()`. -/
def process_summary (fd : List Row) (selected_year : Nat) :
    List ((String × String) × Int) :=
  groupbySum (fun r => (r.processo_aip, r.tipo)) (year_filtered_data fd selected_year)

/-- Line 155: the drill-down selectbox options,
`yearly_cam_data["YEAR"].unique()`. -/
def year_options (fd : List Row) : List Nat :=
  ((yearly_cam_data fd).map fun e => e.1.1).dedup

/-- Lexicographic order on character lists by code point, the comparison
Python `sorted` uses on strings. -/
def lexLe : List Char → List Char → Bool
  | [], _ => true
  | _ :: _, [] => false
  | c :: cs, d :: ds => if c < d then true else if d < c then false else lexLe cs ds

/-- String comparison by code points, as in Python `sorted`. -/
def strLe (a b : String) : Bool := lexLe a.data b.data

/-- Model of Python `sorted` on a list of strings.  Python uses a stable
comparison sort; after `unique()` the elements are pairwise distinct, so the
sorted result is the unique ascending enumeration and any sorting algorithm
coincides with it. -/
def pySorted (l : List String) : List String :=
  List.insertionSort (fun a b => strLe a b = true) l

/-- Lines 40-43: `sorted(data["CAM"].unique())`, then `B001` (if present)
moved to the front. -/
def cam_unique (data : List Row) : List String :=
  let s := pySorted ((data.map Row.cam).dedup)
  if "B001" ∈ s then "B001" :: s.erase "B001" else s

/-- Line 46: `sorted(data["PI"].unique())`. -/
def pi_unique (data : List Row) : List String :=
  pySorted ((data.map Row.pi).dedup)

/-- Line 49: `sorted(data["NOME_COLOQUIAL"].unique())`. -/
def nome_coloquial_unique (data : List Row) : List String :=
  pySorted ((data.map Row.nome_coloquial).dedup)

/-- Characters removed by Python `str.strip()` (the ASCII whitespace that can
occur in a CSV header). -/
def isStripChar (c : Char) : Bool :=
  c = ' ' || c = '\t' || c = '\n' || c = '\r'

/-- Model of `str.strip()` (line 10, `data.columns.str.strip()`): drop
whitespace from both ends. -/
def stripStr (s : String) : String :=
  ⟨((s.data.dropWhile isStripChar).reverse.dropWhile isStripChar).reverse⟩

/-- Line 19: the list of required column names. -/
def required_columns : List String :=
  ["DATA", "PI", "CAM", "TIPO", "QTDE", "NOME_COLOQUIAL", "PROCESSO_AIP"]

/-- Line 20: `[col for col in required_columns if col not in data.columns]`. -/
def missing_columns (cols : List String) : List String :=
  required_columns.filter fun c => decide (c ∉ cols)

/-- The CSV file as produced by `pd.read_csv`: a header row of column names
and the data cells as text, one list of cell texts per record. -/
structure RawFrame where
  header : List String
  cells : List (List String)

/-- Parse a non-empty all-digit character list as a natural number (model of
the numeric parsing done inside the pandas library calls). -/
def natOfChars (cs : List Char) : Option Nat :=
  if cs ≠ [] ∧ cs.all Char.isDigit then
    some (cs.foldl (fun n c => n * 10 + (c.toNat - 48)) 0)
  else none

/-- Parse an optionally-signed integer from characters (model of the numeric
conversion `pd.read_csv` applies to the `QTDE` column). -/
def intOfChars : List Char → Option Int
  | '-' :: cs => (natOfChars cs).map fun n => -(n : Int)
  | cs => (natOfChars cs).map fun n => (n : Int)

/-- Split a character list on a separator character. -/
def splitOnChar (sep : Char) (cs : List Char) : List (List Char) :=
  cs.foldr
    (fun c acc =>
      match acc with
      | [] => [[c]]
      | a :: rest => if c = sep then [] :: a :: rest else (c :: a) :: rest)
    [[]]

/-- Model of `pd.to_datetime(s, format="%d/%m/%Y")` (line 28) on one cell:
three `/`-separated numeric components, day first. -/
def parseDate (s : String) : Option Date :=
  match (splitOnChar '/' s.data).map natOfChars with
  | [some d, some m, some y] => some ⟨d, m, y⟩
  | _ => none

/-- Cell of the column named `c` in a record, by header position. -/
def getCol (cols : List String) (cs : List String) (c : String) : Option String :=
  (List.indexOf? c cols).bind fun i => cs.get? i

/-- Build one `Row` from one record of the raw frame: look up each required
column and parse `DATA` and `QTDE` (models the conversions performed by
`pd.read_csv` and `pd.to_datetime`). -/
def parseRowCells (cols : List String) (cs : List String) : Option Row := do
  let dataStr ← getCol cols cs "DATA"
  let d ← parseDate dataStr
  let piV ← getCol cols cs "PI"
  let camV ← getCol cols cs "CAM"
  let tipoV ← getCol cols cs "TIPO"
  let qtdeStr ← getCol cols cs "QTDE"
  let q ← intOfChars qtdeStr.data
  let nomeV ← getCol cols cs "NOME_COLOQUIAL"
  let procV ← getCol cols cs "PROCESSO_AIP"
  some ⟨d, piV, camV, tipoV, q, nomeV, procV⟩

/-- Parse every record of the frame, failing if any record fails. -/
def parseRows (cols : List String) (cells : List (List String)) :
    Option (List Row) :=
  cells.mapM (parseRowCells cols)

/-- Outcome of the load-and-validate phase (lines 7-32): either a terminal
`st.error` + `st.stop()` with its message, or the parsed dataset. -/
inductive LoadResult where
  | halted (msg : String) : LoadResult
  | ok (rows : List Row) : LoadResult
deriving DecidableEq

/-- Python `repr` of a list of strings, as interpolated by the f-string on
line 23 (`'` is code point 39). -/
def pyListRepr (xs : List String) : String :=
  "[" ++ String.intercalate ", "
    (xs.map fun s => String.singleton (Char.ofNat 39) ++ s ++ String.singleton (Char.ofNat 39)) ++ "]"

/-- Lines 10-32 after the file has been read: strip the column names, abort
on missing required columns (lines 19-24), otherwise parse dates and build
the dataset, aborting on a parse failure (lines 27-32).  The missing-column
check happens strictly before any date parsing. -/
def load_data (f : RawFrame) : LoadResult :=
  let cols := f.header.map stripStr
  let missing := missing_columns cols
  if missing.isEmpty then
    match parseRows cols f.cells with
    | some rows => .ok rows
    | none => .halted "An error occurred while parsing DATA"
  else
    .halted ("The dataset is missing the following required columns: "
      ++ pyListRepr missing)

/-- The characters that force a CSV field to be quoted: the delimiter, the
quote character, and line-break characters (Python `csv` QUOTE_MINIMAL, as
used by `DataFrame.to_csv`). -/
def needsQuote (f : List Char) : Bool :=
  f.any fun c => c = ',' || c = '"' || c = '\n' || c = '\r'

/-- Double every quote character, the CSV escape used inside quoted fields. -/
def escQuotes : List Char → List Char
  | [] => []
  | c :: cs => if c = '"' then '"' :: '"' :: escQuotes cs else c :: escQuotes cs

/-- Serialize one CSV field: quote it (escaping inner quotes) exactly when it
contains a special character. -/
def escField (f : List Char) : List Char :=
  if needsQuote f then '"' :: (escQuotes f ++ ['"']) else f

/-- Serialize one CSV record: the fields, comma-separated. -/
def writeFields : List (List Char) → List Char
  | [] => []
  | [f] => escField f
  | f :: g :: fs => escField f ++ ',' :: writeFields (g :: fs)

/-- Serialize a CSV table: one record per line, each terminated by a newline
(the format produced by `DataFrame.to_csv`). -/
def writeCsv : List (List (List Char)) → List Char
  | [] => []
  | r :: rs => writeFields r ++ '\n' :: writeCsv rs

/-- CSV reading, one character at a time.  The first argument is `true` while
inside a quoted field; the accumulators are the current field and the current
record.  Mirrors the delimiter/quote handling a CSV reader applies to the
exported bytes. -/
def runParse : Bool → List Char → List Char → List (List Char) →
    List (List (List Char))
  | false, [], fld, rec =>
    if fld = [] ∧ rec = [] then [] else [rec ++ [fld]]
  | false, c :: rest, fld, rec =>
    if c = ',' then runParse false rest [] (rec ++ [fld])
    else if c = '\n' then (rec ++ [fld]) :: runParse false rest [] []
    else if c = '"' then runParse true rest fld rec
    else runParse false rest (fld ++ [c]) rec
  | true, [], fld, rec => [rec ++ [fld]]
  | true, c :: rest, fld, rec =>
    if c = '"' then
      match rest with
      | [] => runParse false [] fld rec
      | d :: rest2 =>
        if d = '"' then runParse true rest2 (fld ++ ['"']) rec
        else runParse false (d :: rest2) fld rec
    else runParse true rest (fld ++ [c]) rec

/-- Parse a CSV byte stream into its records of fields. -/
def parseCsv (cs : List Char) : List (List (List Char)) :=
  runParse false cs [] []

/-- Zero-pad a numeral to two digits. -/
def pad2 (n : Nat) : String :=
  if n < 10 then "0" ++ toString n else toString n

/-- Zero-pad a numeral to four digits. -/
def pad4 (n : Nat) : String :=
  if n < 10 then "000" ++ toString n
  else if n < 100 then "00" ++ toString n
  else if n < 1000 then "0" ++ toString n
  else toString n

/-- ISO rendering of a parsed date, the form `to_csv` gives a datetime
column. -/
def dateToIso (d : Date) : String :=
  pad4 d.year ++ "-" ++ pad2 d.month ++ "-" ++ pad2 d.day

/-- The header record of the export: the original columns plus the derived
`YEAR` column, in dataframe order. -/
def exportHeader : List (List Char) :=
  ["DATA".data, "PI".data, "CAM".data, "TIPO".data, "QTDE".data,
    "NOME_COLOQUIAL".data, "PROCESSO_AIP".data, "YEAR".data]

/-- One row of `year_filtered_data` as the CSV fields `to_csv` writes for it,
in column order. -/
def rowCsvFields (r : Row) : List (List Char) :=
  [(dateToIso r.data).data, r.pi.data, r.cam.data, r.tipo.data,
    (toString r.qtde).data, r.nome_coloquial.data, r.processo_aip.data,
    (toString r.year).data]

/-- Line 200: `year_filtered_data.to_csv(index=False)` — a header record
followed by one record per row, comma-delimited. -/
def to_csv (rows : List Row) : List Char :=
  writeCsv (exportHeader :: rows.map rowCsvFields)

/-- One rendered page element (lines 93-205).  Charts carry their source
table so that rendering determines the displayed numbers. -/
inductive UIElem where
  | warning (msg : String) : UIElem
  | metric (label : String) (value : Int) : UIElem
  | chartYearTipo (title : String) (table : List ((Nat × String) × Int)) : UIElem
  | chartYearTipoCam (title : String) (table : List ((Nat × String × String) × Int)) : UIElem
  | chartProcess (title : String) (table : List ((String × String) × Int)) : UIElem
  | selectbox (options : List Nat) : UIElem
  | aggrid (rows : List Row) : UIElem
  | downloadButton (fileName : String) (content : List Char) : UIElem
deriving DecidableEq

/-- Lines 93-205: the page body.  When the filtered dataset is empty only the
warning is emitted (line 205); otherwise the two metrics, the three charts,
the year selectbox, the grid of the selected year's rows and the CSV
download button are emitted in order.  `selected_year` is the selectbox
value. -/
def render (data : List Row) (sel : Selection) (selected_year : Nat) :
    List UIElem :=
  let fd := filtered_data data sel
  if fd.isEmpty then
    [.warning "No data available for the selected filters."]
  else
    let yfd := year_filtered_data fd selected_year
    [.metric "Total EO" (total_eo fd),
      .metric "Total PO" (total_po fd),
      .chartYearTipo "Comparativo EO vs PO por Ano" (yearly_eo_po fd),
      .chartYearTipoCam "Anual EO x PO 2020 à 2024 (Detalhado por CAM)" (yearly_cam_data fd),
      .selectbox (year_options fd),
      .chartProcess ("Process-Level EO and PO for " ++ toString selected_year)
        (process_summary fd selected_year),
      .aggrid yfd,
      .downloadButton ("detailed_data_" ++ toString selected_year ++ ".csv")
        (to_csv yfd)]

/-- Summation of `QTDE` distributes over list append. -/
lemma sumQtde_append (l1 l2 : List Row) :
    sumQtde (l1 ++ l2) = sumQtde l1 + sumQtde l2 := by
  simp [sumQtde]

/-- Summation of `QTDE` is invariant under permutation. -/
lemma sumQtde_perm {l1 l2 : List Row} (h : l1.Perm l2) :
    sumQtde l1 = sumQtde l2 :=
  (h.map Row.qtde).sum_eq

/-- Splitting a filtered sum along an arbitrary boolean mask. -/
lemma sumQtde_filter_split (p q : Row → Bool) (rows : List Row) :
    sumQtde (rows.filter q) =
      sumQtde ((rows.filter p).filter q)
        + sumQtde ((rows.filter fun r => !p r).filter q) := by
  have h := sumQtde_perm ((List.filter_append_perm p rows).filter q)
  rw [List.filter_append] at h
  rw [← h, sumQtde_append]

/-- Partition identity behind every `groupby(...)["QTDE"].sum()`: summing the
per-key group sums over the keys selected by `p` equals summing `QTDE`
directly over the rows whose key satisfies `p`, provided the key list is
duplicate-free and covers the rows. -/
lemma keyedSum {K : Type} [DecidableEq K] (key : Row → K) (p : K → Bool) :
    ∀ (keys : List K) (rows : List Row), keys.Nodup →
      (∀ r ∈ rows, key r ∈ keys) →
      ((keys.filter p).map
          (fun k => sumQtde (rows.filter fun r => decide (key r = k)))).sum
        = sumQtde (rows.filter fun r => p (key r)) := by
  intro keys
  induction keys with
  | nil =>
    intro rows _ hcov
    have hnil : rows = [] :=
      List.eq_nil_iff_forall_not_mem.mpr fun r hr => by simpa using hcov r hr
    subst hnil
    simp [sumQtde]
  | cons a ks ih =>
    intro rows hnd hcov
    have hna : a ∉ ks := (List.nodup_cons.mp hnd).1
    have hndk : ks.Nodup := (List.nodup_cons.mp hnd).2
    have hmapeq : ∀ k ∈ ks.filter p,
        (fun k => sumQtde (rows.filter fun r => decide (key r = k))) k
          = (fun k => sumQtde
              (((rows.filter fun r => !decide (key r = a)).filter
                fun r => decide (key r = k)))) k := by
      intro k hk
      have hka : k ≠ a := fun he => hna (he ▸ List.mem_of_mem_filter hk)
      simp only [List.filter_filter]
      refine congrArg sumQtde (List.filter_congr ?_)
      intro r _
      by_cases h : key r = k
      · simp [h, hka]
      · simp [h]
    have hcov2 : ∀ r ∈ rows.filter (fun r => !decide (key r = a)), key r ∈ ks := by
      intro r hr
      obtain ⟨hr1, hr2⟩ := List.mem_filter.mp hr
      have := hcov r hr1
      simp at hr2
      rcases List.mem_cons.mp this with he | hm
      · exact absurd he hr2
      · exact hm
    have hih := ih (rows.filter fun r => !decide (key r = a)) hndk hcov2
    have hsplit := sumQtde_filter_split (fun r => decide (key r = a))
      (fun r => p (key r)) rows
    by_cases hp : p a = true
    · have hfa : (a :: ks).filter p = a :: ks.filter p := by simp [hp]
      rw [hfa, List.map_cons, List.sum_cons, List.map_congr_left hmapeq, hih, hsplit]
      have hone : (rows.filter fun r => decide (key r = a)).filter
          (fun r => p (key r)) = rows.filter fun r => decide (key r = a) := by
        rw [List.filter_eq_self]
        intro r hr
        have := (List.mem_filter.mp hr).2
        simp at this
        simp [this, hp]
      rw [hone]
    · have hp2 : p a = false := by simpa using hp
      have hfa : (a :: ks).filter p = ks.filter p := by simp [hp2]
      rw [hfa, List.map_congr_left hmapeq, hih, hsplit]
      have hzero : (rows.filter fun r => decide (key r = a)).filter
          (fun r => p (key r)) = [] := by
        rw [List.filter_eq_nil_iff]
        intro r hr
        have := (List.mem_filter.mp hr).2
        simp at this
        simp [this, hp2]
      rw [hzero]
      simp [sumQtde]

/-- A `loc[..., "QTDE"].sum()` over a group table equals the direct filtered
sum over the underlying rows. -/
lemma locKeySum_groupbySum {K : Type} [DecidableEq K] (key : Row → K)
    (p : K → Bool) (rows : List Row) :
    locKeySum (groupbySum key rows) p
      = sumQtde (rows.filter fun r => p (key r)) := by
  unfold locKeySum groupbySum
  have hfm : ∀ (keys : List K),
      (keys.map fun k =>
          (k, sumQtde (rows.filter fun r => decide (key r = k)))).filter
        (fun e => p e.1)
        = (keys.filter p).map fun k =>
            (k, sumQtde (rows.filter fun r => decide (key r = k))) := by
    intro keys
    induction keys with
    | nil => simp
    | cons a ks ih =>
      by_cases hp : p a = true
      · simp [hp, ih]
      · have hp2 : p a = false := by simpa using hp
        simp [hp2, ih]
  rw [hfm, List.map_map]
  exact keyedSum key p ((rows.map key).dedup) rows (List.nodup_dedup _)
    (fun r hr => by simp [List.mem_dedup]; exact ⟨r, hr, rfl⟩)

/-- Every stage of the filter chain removes rows only, so the filtered
dataset is a sublist of the loaded dataset. -/
lemma filtered_data_sublist (data : List Row) (sel : Selection) :
    (filtered_data data sel).Sublist data := by
  unfold filtered_data
  by_cases h1 : sel.pi_filter.isEmpty <;>
    by_cases h2 : sel.cam_filter.isEmpty <;>
      by_cases h3 : sel.nome_coloquial_filter.isEmpty <;>
        simp only [h1, h2, h3, if_true, if_false, Bool.false_eq_true] <;>
        first
          | exact List.filter_sublist _
          | exact (List.filter_sublist _).trans (List.filter_sublist _)
          | exact ((List.filter_sublist _).trans (List.filter_sublist _)).trans
              (List.filter_sublist _)
          | exact (((List.filter_sublist _).trans (List.filter_sublist _)).trans
              (List.filter_sublist _)).trans (List.filter_sublist _)

/-- C1: a row is in the filtered row set iff it is a dataset row whose `YEAR`
lies in the selected range and whose `PI`, `CAM` and `NOME_COLOQUIAL` values
are accepted by the respective multiselect (an empty selection accepts every
value) — the filtered set is the exact intersection of the year-range
predicate with each non-empty per-field inclusion predicate. -/
theorem filtered_data_mem_iff (data : List Row) (sel : Selection) (r : Row) :
    r ∈ filtered_data data sel ↔
      r ∈ data ∧ sel.year_lo ≤ r.year ∧ r.year ≤ sel.year_hi
        ∧ (sel.pi_filter = [] ∨ r.pi ∈ sel.pi_filter)
        ∧ (sel.cam_filter = [] ∨ r.cam ∈ sel.cam_filter)
        ∧ (sel.nome_coloquial_filter = [] ∨
            r.nome_coloquial ∈ sel.nome_coloquial_filter) := by
  unfold filtered_data
  by_cases h1 : sel.pi_filter = [] <;>
    by_cases h2 : sel.cam_filter = [] <;>
      by_cases h3 : sel.nome_coloquial_filter = [] <;>
        simp [h1, h2, h3, List.mem_filter, and_assoc] <;>
        tauto

/-- C9: the `Total EO` metric is the `QTDE` sum over exactly the filtered
rows with `TIPO = "EO"`, and `Total PO` over exactly those with
`TIPO = "PO"`; rows with any other `TIPO` value contribute to neither. -/
theorem totals_partition_tipo (data : List Row) (sel : Selection) :
    total_eo (filtered_data data sel)
        = sumQtde ((filtered_data data sel).filter fun r => decide (r.tipo = "EO"))
      ∧ total_po (filtered_data data sel)
        = sumQtde ((filtered_data data sel).filter fun r => decide (r.tipo = "PO")) :=
  ⟨locKeySum_groupbySum Row.tipo (fun t => decide (t = "EO")) _,
    locKeySum_groupbySum Row.tipo (fun t => decide (t = "PO")) _⟩

/-- When every row has type `EO` or `PO`, the two type-restricted sums add up
to the unrestricted sum. -/
lemma sumQtde_eo_po (rows : List Row)
    (h : ∀ r ∈ rows, r.tipo = "EO" ∨ r.tipo = "PO") :
    sumQtde (rows.filter fun r => decide (r.tipo = "EO"))
      + sumQtde (rows.filter fun r => decide (r.tipo = "PO")) = sumQtde rows := by
  have hne : ("EO" : String) ≠ "PO" := by decide
  induction rows with
  | nil => simp [sumQtde]
  | cons r rs ih =>
    have hrs := ih fun x hx => h x (by simp [hx])
    rcases h r (by simp) with he | hp
    · simp only [List.filter_cons, he]
      simp [sumQtde, hne, Ne.symm hne] at hrs ⊢
      omega
    · simp only [List.filter_cons, hp]
      simp [sumQtde, hne, Ne.symm hne] at hrs ⊢
      omega

/-- C2: when every `TIPO` value in the dataset is `"EO"` or `"PO"`, the two
displayed metrics add up to the total `QTDE` of the filtered dataset, for
every filter selection. -/
theorem eo_plus_po_eq_total (data : List Row) (sel : Selection)
    (h : ∀ r ∈ data, r.tipo = "EO" ∨ r.tipo = "PO") :
    total_eo (filtered_data data sel) + total_po (filtered_data data sel)
      = sumQtde (filtered_data data sel) := by
  unfold total_eo total_po total_summary
  rw [locKeySum_groupbySum Row.tipo (fun t => decide (t = "EO")),
    locKeySum_groupbySum Row.tipo (fun t => decide (t = "PO"))]
  exact sumQtde_eo_po _ fun r hr =>
    h r ((filtered_data_sublist data sel).mem hr)

/-- C3: grouping-then-summing commutes with the year filter.  Reading the
`(YEAR, TIPO)` group table of the filtered dataset at `YEAR = y` gives, for
each `TIPO = t`, the same sum as first restricting the filtered dataset to
`YEAR = y` and then grouping by `TIPO` — or by `(PROCESSO_AIP, TIPO)` and
totalling the groups with `TIPO = t`. -/
theorem groupby_year_commutes (data : List Row) (sel : Selection) (y : Nat)
    (t : String) :
    locKeySum (yearly_eo_po (filtered_data data sel))
        (fun k => decide (k = (y, t)))
      = locKeySum
          (groupbySum Row.tipo (year_filtered_data (filtered_data data sel) y))
          (fun s => decide (s = t))
    ∧ locKeySum (yearly_eo_po (filtered_data data sel))
        (fun k => decide (k = (y, t)))
      = locKeySum (process_summary (filtered_data data sel) y)
          (fun k => decide (k.2 = t)) := by
  unfold yearly_eo_po process_summary
  rw [locKeySum_groupbySum (fun r => (r.year, r.tipo)) (fun k => decide (k = (y, t))),
    locKeySum_groupbySum Row.tipo (fun s => decide (s = t)),
    locKeySum_groupbySum (fun r => (r.processo_aip, r.tipo)) (fun k => decide (k.2 = t))]
  unfold year_filtered_data
  refine ⟨?_, ?_⟩ <;>
    (rw [List.filter_filter]
     refine congrArg sumQtde (List.filter_congr fun r _ => ?_)
     by_cases h1 : r.year = y <;> by_cases h2 : r.tipo = t <;>
       simp [h1, h2, Prod.ext_iff])

/-- Filtering a duplicate-free list for non-membership keeps exactly the one
absent element. -/
lemma filter_not_mem_single : ∀ {l : List String} {cols : List String}
    {c : String}, l.Nodup → c ∈ l → c ∉ cols →
    (∀ d ∈ l, d ≠ c → d ∈ cols) →
    l.filter (fun d => !decide (d ∈ cols)) = [c] := by
  intro l
  induction l with
  | nil => intro cols c _ hc; cases hc
  | cons a l2 ih =>
    intro cols c hnd hc h1 h2
    rcases List.mem_cons.mp hc with rfl | hcl
    · have htail : l2.filter (fun d => !decide (d ∈ cols)) = [] := by
        rw [List.filter_eq_nil_iff]
        intro d hd
        have hdc : d ≠ c := fun he => (List.nodup_cons.mp hnd).1 (he ▸ hd)
        simp [h2 d (by simp [hd]) hdc]
      rw [List.filter_cons]
      simp [h1, htail]
    · have hac : a ≠ c := fun he => (List.nodup_cons.mp hnd).1 (he ▸ hcl)
      have ha : a ∈ cols := h2 a (by simp) hac
      have ht := ih (List.nodup_cons.mp hnd).2 hcl h1
        (fun d hd hdc => h2 d (by simp [hd]) hdc)
      rw [List.filter_cons]
      simp [ha, ht]

/-- C5: when the whitespace-stripped header lacks exactly one required
column, the run halts at the missing-column check — before any date parsing
or rendering — with the error message naming exactly that column. -/
theorem missing_column_aborts (f : RawFrame) (c : String)
    (hc : c ∈ required_columns)
    (hmiss : c ∉ f.header.map stripStr)
    (hrest : ∀ d ∈ required_columns, d ≠ c → d ∈ f.header.map stripStr) :
    load_data f = .halted
      ("The dataset is missing the following required columns: "
        ++ pyListRepr [c]) := by
  have hnd : required_columns.Nodup := by decide
  have hsingle : missing_columns (f.header.map stripStr) = [c] := by
    unfold missing_columns
    simp only [decide_not]
    exact filter_not_mem_single hnd hc hmiss hrest
  unfold load_data
  simp [hsingle]

/-- Witness for the missing-column theorem: a header that lacks exactly
`QTDE` aborts with the message naming `QTDE`. -/
theorem missing_column_aborts_witness :
    load_data ⟨["DATA", "PI", "CAM", "TIPO", "NOME_COLOQUIAL", "PROCESSO_AIP"], []⟩
      = .halted ("The dataset is missing the following required columns: "
          ++ pyListRepr ["QTDE"]) :=
  missing_column_aborts
    ⟨["DATA", "PI", "CAM", "TIPO", "NOME_COLOQUIAL", "PROCESSO_AIP"], []⟩
    "QTDE" (by decide) (by decide) (by decide)

/-- A sample dataset row (an `EO` record of 2023). -/
def row0 : Row := ⟨⟨15, 3, 2023⟩, "P1", "B001", "EO", 5, "Jeep", "AIP1"⟩

/-- A sample dataset row (a `PO` record of 2023). -/
def row1 : Row := ⟨⟨2, 7, 2023⟩, "P1", "B001", "PO", 3, "Jeep", "AIP1"⟩

/-- A sample dataset row (an `EO` record of 2024, other categoricals). -/
def row2 : Row := ⟨⟨1, 1, 2024⟩, "P2", "A100", "EO", 2, "Truck", "AIP2"⟩

/-- A selection with no categorical filters and a wide year range. -/
def selAll : Selection := ⟨[], [], [], 2020, 2030⟩

/-- C6: the page is in exactly one of two states.  With no matching rows only
the warning is rendered — no metrics, charts, grid or download button; with
matching rows the full metric/chart/selectbox/grid/download sequence is
rendered and no warning appears. -/
theorem render_two_states (data : List Row) (sel : Selection)
    (selected_year : Nat) :
    (filtered_data data sel = [] →
      render data sel selected_year
        = [.warning "No data available for the selected filters."])
    ∧ (filtered_data data sel ≠ [] →
      render data sel selected_year
        = [.metric "Total EO" (total_eo (filtered_data data sel)),
            .metric "Total PO" (total_po (filtered_data data sel)),
            .chartYearTipo "Comparativo EO vs PO por Ano"
              (yearly_eo_po (filtered_data data sel)),
            .chartYearTipoCam "Anual EO x PO 2020 à 2024 (Detalhado por CAM)"
              (yearly_cam_data (filtered_data data sel)),
            .selectbox (year_options (filtered_data data sel)),
            .chartProcess ("Process-Level EO and PO for " ++ toString selected_year)
              (process_summary (filtered_data data sel) selected_year),
            .aggrid (year_filtered_data (filtered_data data sel) selected_year),
            .downloadButton ("detailed_data_" ++ toString selected_year ++ ".csv")
              (to_csv (year_filtered_data (filtered_data data sel) selected_year))]) := by
  constructor <;> intro h <;> simp [render, h]

/-- Witness for the two render states: an unfiltered one-row dataset renders
the full sequence, and the empty dataset renders only the warning. -/
theorem render_two_states_witness :
    render [] selAll 2023
        = [.warning "No data available for the selected filters."]
    ∧ render [row0] selAll 2023
        = [.metric "Total EO" (total_eo (filtered_data [row0] selAll)),
            .metric "Total PO" (total_po (filtered_data [row0] selAll)),
            .chartYearTipo "Comparativo EO vs PO por Ano"
              (yearly_eo_po (filtered_data [row0] selAll)),
            .chartYearTipoCam "Anual EO x PO 2020 à 2024 (Detalhado por CAM)"
              (yearly_cam_data (filtered_data [row0] selAll)),
            .selectbox (year_options (filtered_data [row0] selAll)),
            .chartProcess ("Process-Level EO and PO for " ++ toString 2023)
              (process_summary (filtered_data [row0] selAll) 2023),
            .aggrid (year_filtered_data (filtered_data [row0] selAll) 2023),
            .downloadButton ("detailed_data_" ++ toString 2023 ++ ".csv")
              (to_csv (year_filtered_data (filtered_data [row0] selAll) 2023))] :=
  ⟨(render_two_states [] selAll 2023).1 (by decide),
    (render_two_states [row0] selAll 2023).2 (by decide)⟩

/-- The drill-down selectbox offers exactly the distinct `YEAR` values of the
given rows. -/
lemma year_options_mem (fd : List Row) (y : Nat) :
    y ∈ year_options fd ↔ y ∈ fd.map Row.year := by
  unfold year_options yearly_cam_data groupbySum
  simp [List.mem_dedup, List.mem_map]

/-- C8: the drill-down selector offers exactly the distinct `YEAR` values of
the filtered dataset, so every selectable year has at least one detail row
(the rows charted, shown in the grid and exported). -/
theorem year_options_complete (data : List Row) (sel : Selection) (y : Nat) :
    (y ∈ year_options (filtered_data data sel)
      ↔ y ∈ (filtered_data data sel).map Row.year)
    ∧ (y ∈ year_options (filtered_data data sel) →
        year_filtered_data (filtered_data data sel) y ≠ []) := by
  refine ⟨year_options_mem _ y, fun h => ?_⟩
  obtain ⟨r, hr, hry⟩ := List.mem_map.mp ((year_options_mem _ y).mp h)
  exact List.ne_nil_of_mem
    (List.mem_filter.mpr ⟨hr, by simp [hry]⟩)

/-- Witness for the year-options theorem: in the sample dataset the year 2023
is offered and its detail rows are non-empty. -/
theorem year_options_complete_witness :
    year_filtered_data (filtered_data [row0, row1, row2] selAll) 2023 ≠ [] :=
  (year_options_complete [row0, row1, row2] selAll 2023).2 (by decide)

/-- The code-point comparison is total. -/
lemma lexLe_total : ∀ a b : List Char, lexLe a b = true ∨ lexLe b a = true := by
  intro a
  induction a with
  | nil => intro b; left; rfl
  | cons c cs ih =>
    intro b
    cases b with
    | nil => right; rfl
    | cons d ds =>
      rcases lt_trichotomy c d with h | h | h
      · left; simp [lexLe, h]
      · subst h
        rcases ih ds with h2 | h2
        · left; simp [lexLe, lt_irrefl, h2]
        · right; simp [lexLe, lt_irrefl, h2]
      · right; simp [lexLe, h]

/-- The code-point comparison is transitive. -/
lemma lexLe_trans : ∀ a b c : List Char,
    lexLe a b = true → lexLe b c = true → lexLe a c = true := by
  intro a
  induction a with
  | nil => intro b c _ _; rfl
  | cons x xs ih =>
    intro b c hab hbc
    cases b with
    | nil => simp [lexLe] at hab
    | cons y ys =>
      cases c with
      | nil => simp [lexLe] at hbc
      | cons z zs =>
        simp only [lexLe] at hab hbc ⊢
        by_cases hxy : x < y
        · by_cases hyz : y < z
          · simp [lt_trans hxy hyz]
          · by_cases hzy : z < y
            · simp [lexLe, hyz, hzy] at hbc
            · have : y = z := le_antisymm (not_lt.mp hzy) (not_lt.mp hyz)
              subst this
              simp [hxy]
        · by_cases hyx : y < x
          · simp [hxy, hyx] at hab
          · have : x = y := le_antisymm (not_lt.mp hyx) (not_lt.mp hxy)
            subst this
            simp only [lt_irrefl, if_false] at hab
            by_cases hyz : x < z
            · simp [hyz]
            · by_cases hzy : z < x
              · simp [hyz, hzy] at hbc
              · simp only [hyz, hzy, if_false]
                exact ih ys zs (by simpa using hab) (by simpa [hyz, hzy] using hbc)

instance : IsTotal String (fun a b => strLe a b = true) :=
  ⟨fun a b => lexLe_total a.data b.data⟩

instance : IsTrans String (fun a b => strLe a b = true) :=
  ⟨fun a b c => lexLe_trans a.data b.data c.data⟩

/-- Sorting with `pySorted` keeps exactly the members of the input. -/
lemma pySorted_mem (l : List String) (x : String) :
    x ∈ pySorted l ↔ x ∈ l :=
  (List.perm_insertionSort _ l).mem_iff

/-- The result of `pySorted` is ascending under the code-point order. -/
lemma pySorted_sorted (l : List String) :
    (pySorted l).Sorted (fun a b => strLe a b = true) :=
  List.sorted_insertionSort _ l

/-- A sorted duplicate-free string pool stays duplicate-free. -/
lemma pySorted_nodup {l : List String} (h : l.Nodup) :
    (pySorted l).Nodup :=
  (List.perm_insertionSort _ l).nodup_iff.mpr h

/-- C7: each categorical filter offers exactly the distinct values of its
column; `PI` and `NOME_COLOQUIAL` options are in ascending code-point order,
and `CAM` options are ascending except that `B001`, when present, is pinned
to the first position (the remainder staying ascending). -/
theorem filter_options_spec (data : List Row) (x : String) :
    (x ∈ pi_unique data ↔ x ∈ data.map Row.pi)
    ∧ (x ∈ nome_coloquial_unique data ↔ x ∈ data.map Row.nome_coloquial)
    ∧ (x ∈ cam_unique data ↔ x ∈ data.map Row.cam)
    ∧ (pi_unique data).Sorted (fun a b => strLe a b = true)
    ∧ (nome_coloquial_unique data).Sorted (fun a b => strLe a b = true)
    ∧ ("B001" ∉ data.map Row.cam →
        (cam_unique data).Sorted (fun a b => strLe a b = true))
    ∧ ("B001" ∈ data.map Row.cam →
        (cam_unique data).head? = some "B001"
        ∧ ((cam_unique data).tail).Sorted (fun a b => strLe a b = true)) := by
  have hb : "B001" ∈ pySorted ((data.map Row.cam).dedup)
      ↔ "B001" ∈ data.map Row.cam := by
    rw [pySorted_mem, List.mem_dedup]
  have hnd : (pySorted ((data.map Row.cam).dedup)).Nodup :=
    pySorted_nodup (List.nodup_dedup _)
  refine ⟨?_, ?_, ?_, ?_, ?_, ?_, ?_⟩
  · rw [pi_unique, pySorted_mem, List.mem_dedup]
  · rw [nome_coloquial_unique, pySorted_mem, List.mem_dedup]
  · unfold cam_unique
    by_cases h : "B001" ∈ pySorted ((data.map Row.cam).dedup)
    · simp only [h, if_true]
      rw [List.mem_cons, hnd.mem_erase_iff]
      constructor
      · rintro (rfl | ⟨_, hx⟩)
        · exact hb.mp h
        · exact List.mem_dedup.mp ((pySorted_mem _ _).mp hx)
      · intro hx
        by_cases hxb : x = "B001"
        · exact Or.inl hxb
        · exact Or.inr ⟨hxb, by rw [pySorted_mem, List.mem_dedup]; exact hx⟩
    · simp only [h, if_false]
      rw [pySorted_mem, List.mem_dedup]
  · exact pySorted_sorted _
  · exact pySorted_sorted _
  · intro hnb
    unfold cam_unique
    have h : "B001" ∉ pySorted ((data.map Row.cam).dedup) := fun hx => hnb (hb.mp hx)
    simp only [h, if_false]
    exact pySorted_sorted _
  · intro hyb
    have h : "B001" ∈ pySorted ((data.map Row.cam).dedup) := hb.mpr hyb
    unfold cam_unique
    simp only [h, if_true]
    exact ⟨rfl, List.Pairwise.sublist (List.erase_sublist _ _) (pySorted_sorted _)⟩

/-- Witness for the filter-option theorem: in the sample dataset `B001` is
present, pinned first, and the remaining options stay sorted. -/
theorem filter_options_spec_witness :
    (cam_unique [row0, row1, row2]).head? = some "B001"
    ∧ ((cam_unique [row0, row1, row2]).tail).Sorted
        (fun a b => strLe a b = true) :=
  (filter_options_spec [row0, row1, row2] "B001").2.2.2.2.2.2 (by decide)

/-- Reading a quoted field body: consuming the escaped body and its closing
quote returns to unquoted mode with the body appended to the field
accumulator (the next character is never a quote in writer output). -/
lemma runParse_quoted (f : List Char) : ∀ (rest fld : List Char)
    (acc : List (List Char)), rest.head? ≠ some '"' →
    runParse true (escQuotes f ++ '"' :: rest) fld acc
      = runParse false rest (fld ++ f) acc := by
  induction f with
  | nil =>
    intro rest fld acc h
    cases rest with
    | nil => simp [escQuotes, runParse]
    | cons d rest2 =>
      have hd : d ≠ '"' := by simpa using h
      simp [escQuotes, runParse, hd]
  | cons c f2 ih =>
    intro rest fld acc h
    by_cases hc : c = '"'
    · subst hc
      rw [show escQuotes ('"' :: f2) ++ '"' :: rest
          = '"' :: '"' :: (escQuotes f2 ++ '"' :: rest) from by simp [escQuotes]]
      rw [show runParse true ('"' :: '"' :: (escQuotes f2 ++ '"' :: rest)) fld acc
          = runParse true (escQuotes f2 ++ '"' :: rest) (fld ++ ['"']) acc from by
        simp [runParse]]
      rw [ih rest (fld ++ ['"']) acc h]
      simp
    · rw [show escQuotes (c :: f2) ++ '"' :: rest
          = c :: (escQuotes f2 ++ '"' :: rest) from by simp [escQuotes, hc]]
      rw [show runParse true (c :: (escQuotes f2 ++ '"' :: rest)) fld acc
          = runParse true (escQuotes f2 ++ '"' :: rest) (fld ++ [c]) acc from by
        rw [runParse.eq_def]; simp [hc]]
      rw [ih rest (fld ++ [c]) acc h]
      simp

/-- Reading an unquoted field body: consuming characters free of delimiter,
newline and quote appends them to the field accumulator. -/
lemma runParse_plain (f : List Char) : ∀ (rest fld : List Char)
    (acc : List (List Char)),
    (∀ c ∈ f, c ≠ ',' ∧ c ≠ '\n' ∧ c ≠ '"') →
    runParse false (f ++ rest) fld acc = runParse false rest (fld ++ f) acc := by
  induction f with
  | nil => intro rest fld acc _; simp
  | cons c f2 ih =>
    intro rest fld acc h
    obtain ⟨h1, h2, h3⟩ := h c (by simp)
    rw [List.cons_append]
    rw [show runParse false (c :: (f2 ++ rest)) fld acc
        = runParse false (f2 ++ rest) (fld ++ [c]) acc from by
      rw [runParse.eq_def]; simp [h1, h2, h3]]
    rw [ih rest (fld ++ [c]) acc fun d hd => h d (by simp [hd])]
    simp

/-- A field that the writer leaves unquoted contains no special character. -/
lemma needsQuote_false {f : List Char} (h : needsQuote f = false) :
    ∀ c ∈ f, c ≠ ',' ∧ c ≠ '\n' ∧ c ≠ '"' := by
  intro c hc
  unfold needsQuote at h
  rw [List.any_eq_false] at h
  have := h c hc
  simp at this
  tauto

/-- Reading one serialized field, quoted or not, appends exactly the original
field text to the accumulator. -/
lemma runParse_escField (f rest fld : List Char) (acc : List (List Char))
    (h : rest.head? ≠ some '"') :
    runParse false (escField f ++ rest) fld acc
      = runParse false rest (fld ++ f) acc := by
  unfold escField
  by_cases hq : needsQuote f
  · simp only [hq, if_true]
    rw [show ('"' :: (escQuotes f ++ ['"'])) ++ rest
        = '"' :: (escQuotes f ++ '"' :: rest) from by simp]
    rw [show runParse false ('"' :: (escQuotes f ++ '"' :: rest)) fld acc
        = runParse true (escQuotes f ++ '"' :: rest) fld acc from by simp [runParse]]
    exact runParse_quoted f rest fld acc h
  · have hq2 : needsQuote f = false := by simpa using hq
    simp only [hq2, Bool.false_eq_true, if_false]
    exact runParse_plain f rest fld acc (needsQuote_false hq2)

/-- Reading one serialized record followed by its newline produces exactly
that record and continues with an empty accumulator. -/
lemma runParse_record (fs : List (List Char)) : ∀ (f : List Char)
    (rest fld : List Char) (acc : List (List Char)),
    runParse false (writeFields (f :: fs) ++ '\n' :: rest) fld acc
      = (acc ++ (fld ++ f) :: fs) :: runParse false rest [] [] := by
  induction fs with
  | nil =>
    intro f rest fld acc
    rw [show writeFields [f] = escField f from rfl]
    rw [runParse_escField f ('\n' :: rest) fld acc (by simp)]
    simp [runParse]
  | cons g fs2 ih =>
    intro f rest fld acc
    rw [show writeFields (f :: g :: fs2) ++ '\n' :: rest
        = escField f ++ (',' :: (writeFields (g :: fs2) ++ '\n' :: rest)) from by
      simp [writeFields]]
    rw [runParse_escField f _ fld acc (by simp)]
    rw [show runParse false (',' :: (writeFields (g :: fs2) ++ '\n' :: rest))
          (fld ++ f) acc
        = runParse false (writeFields (g :: fs2) ++ '\n' :: rest) []
          (acc ++ [fld ++ f]) from by simp [runParse]]
    rw [ih g rest [] (acc ++ [fld ++ f])]
    simp

/-- The CSV reader inverts the CSV writer on every table of non-empty
records. -/
lemma parseCsv_writeCsv : ∀ (table : List (List (List Char))),
    (∀ r ∈ table, r ≠ []) → parseCsv (writeCsv table) = table := by
  intro table
  induction table with
  | nil => intro _; simp [parseCsv, writeCsv, runParse]
  | cons r t ih =>
    intro h
    obtain ⟨f, fs, rfl⟩ : ∃ f fs, r = f :: fs := by
      cases r with
      | nil => exact absurd rfl (h [] (by simp))
      | cons f fs => exact ⟨f, fs, rfl⟩
    rw [show writeCsv ((f :: fs) :: t) = writeFields (f :: fs) ++ '\n' :: writeCsv t
        from rfl]
    unfold parseCsv
    rw [runParse_record fs f (writeCsv t) [] []]
    rw [show runParse false (writeCsv t) [] [] = parseCsv (writeCsv t) from rfl]
    rw [ih fun r2 h2 => h r2 (by simp [h2])]
    simp

/-- C4: CSV round-trip.  Re-parsing the exported bytes of the displayed
detail rows under the export's own delimiter and quoting reproduces the
header and every record exactly; in particular the re-parsed table has the
same number of data rows and, per row, the same `QTDE` text. -/
theorem csv_roundtrip (rows : List Row) :
    parseCsv (to_csv rows) = exportHeader :: rows.map rowCsvFields
    ∧ ((parseCsv (to_csv rows)).tail).length = rows.length
    ∧ ((parseCsv (to_csv rows)).tail).map (fun record => record.get? 4)
        = rows.map fun r => some (toString r.qtde).data := by
  have hmain : parseCsv (to_csv rows) = exportHeader :: rows.map rowCsvFields := by
    unfold to_csv
    apply parseCsv_writeCsv
    intro r hr
    rcases List.mem_cons.mp hr with rfl | hr2
    · simp [exportHeader]
    · obtain ⟨r0, _, rfl⟩ := List.mem_map.mp hr2
      simp [rowCsvFields]
  refine ⟨hmain, ?_, ?_⟩
  · rw [hmain]; simp
  · rw [hmain]
    simp only [List.tail_cons, List.map_map]
    exact List.map_congr_left fun r _ => rfl

/-- Witness for the metric-total theorem: the sample two-row dataset, whose
`TIPO` values are all `EO` or `PO`, satisfies `EO + PO = total`. -/
theorem eo_plus_po_eq_total_witness :
    total_eo (filtered_data [row0, row1] selAll)
        + total_po (filtered_data [row0, row1] selAll)
      = sumQtde (filtered_data [row0, row1] selAll) :=
  eo_plus_po_eq_total [row0, row1] selAll (by decide)

/-- C10: the pipeline is deterministic — identical dataset contents and
identical filter and drill-down selections give identical rendered output,
identical grouped aggregate tables, identical detail rows and identical
exported CSV bytes. -/
theorem pipeline_deterministic (d1 d2 : List Row) (s1 s2 : Selection)
    (y1 y2 : Nat) (hd : d1 = d2) (hs : s1 = s2) (hy : y1 = y2) :
    render d1 s1 y1 = render d2 s2 y2
    ∧ yearly_eo_po (filtered_data d1 s1) = yearly_eo_po (filtered_data d2 s2)
    ∧ yearly_cam_data (filtered_data d1 s1) = yearly_cam_data (filtered_data d2 s2)
    ∧ process_summary (filtered_data d1 s1) y1
        = process_summary (filtered_data d2 s2) y2
    ∧ year_filtered_data (filtered_data d1 s1) y1
        = year_filtered_data (filtered_data d2 s2) y2
    ∧ to_csv (year_filtered_data (filtered_data d1 s1) y1)
        = to_csv (year_filtered_data (filtered_data d2 s2) y2) := by
  subst hd
  subst hs
  subst hy
  exact ⟨rfl, rfl, rfl, rfl, rfl, rfl⟩

/-- Witness for determinism at a concrete dataset and selection. -/
theorem pipeline_deterministic_witness :
    render [row0, row2] selAll 2023 = render [row0, row2] selAll 2023
    ∧ yearly_eo_po (filtered_data [row0, row2] selAll)
        = yearly_eo_po (filtered_data [row0, row2] selAll)
    ∧ yearly_cam_data (filtered_data [row0, row2] selAll)
        = yearly_cam_data (filtered_data [row0, row2] selAll)
    ∧ process_summary (filtered_data [row0, row2] selAll) 2023
        = process_summary (filtered_data [row0, row2] selAll) 2023
    ∧ year_filtered_data (filtered_data [row0, row2] selAll) 2023
        = year_filtered_data (filtered_data [row0, row2] selAll) 2023
    ∧ to_csv (year_filtered_data (filtered_data [row0, row2] selAll) 2023)
        = to_csv (year_filtered_data (filtered_data [row0, row2] selAll) 2023) :=
  pipeline_deterministic [row0, row2] [row0, row2] selAll selAll 2023 2023
    rfl rfl rfl
